import Mathlib

/-!
Verification of the release-readiness checker
(`skills/release/scripts/release_validator.py`) against its specification.

The Python source is shallowly embedded: pure string manipulation is
translated into executable Lean functions over `String`/`List Char`,
floating-point percentages are modelled as `ℚ` (every number the program
manipulates is produced by parsing decimal digits, so this is exact),
and every external effect (filesystem queries, file contents, `json.loads`,
`subprocess.run`) is an oracle packaged in an `Env` record.  Python
exceptions are modelled with `Except`/`Option PyExc` values: a function that
can raise returns, alongside the checks it appended before raising, the
exception it escaped with.
-/

set_option autoImplicit false

/-- Python's whitespace set used by `str.strip` and by the `\s` regex class:
space, tab, newline, carriage return, vertical tab, form feed. -/
def pyIsSpace (c : Char) : Bool :=
  c = ' ' || c = '\t' || c = '\n' || c = '\r' || c = '\x0b' || c = '\x0c'

/-- Python `str.strip()`: drop whitespace from both ends. -/
def pyStrip (s : String) : String :=
  String.mk (((s.toList.dropWhile pyIsSpace).reverse.dropWhile pyIsSpace).reverse)

/-- Auxiliary for `pySplit`: accumulate the current field (reversed). -/
def splitCharAux (sep : Char) : List Char → List Char → List String
  | [], acc => [String.mk acc.reverse]
  | c :: rest, acc =>
    if c = sep then String.mk acc.reverse :: splitCharAux sep rest []
    else splitCharAux sep rest (c :: acc)

/-- Python `str.split(sep)` for a one-character separator: keeps empty
fields, and `"".split(sep) = [""]`. -/
def pySplit (sep : Char) (s : String) : List String :=
  splitCharAux sep s.toList []

/-- Python `str.startswith(pre)`. -/
def pyStartsWith (s pre : String) : Bool :=
  pre.toList.isPrefixOf s.toList

/-- Substring containment over character lists (Python `sub in hay`). -/
def listContainsSub (needle : List Char) : List Char → Bool
  | [] => needle.isEmpty
  | c :: rest => needle.isPrefixOf (c :: rest) || listContainsSub needle rest

/-- Python `sub in hay` for strings. -/
def pyContainsSub (hay sub : String) : Bool :=
  listContainsSub sub.toList hay.toList

/-- Python ASCII `str.lower()` on one character. -/
def pyCharLower (c : Char) : Char :=
  if 'A' ≤ c ∧ c ≤ 'Z' then Char.ofNat (c.toNat + 32) else c

/-- Python `str.lower()` (the program only lowers ASCII check names). -/
def pyLower (s : String) : String :=
  String.mk (s.toList.map pyCharLower)

/-- Python slicing `s[:n]`. -/
def pyTake (n : Nat) (s : String) : String :=
  String.mk (s.toList.take n)

/-- Python `pathlib` `/` operator on string paths. -/
def pjoin (a b : String) : String :=
  a ++ "/" ++ b

/-- Python `Path.name`: the final path component. -/
def pathName (p : String) : String :=
  (pySplit '/' p).getLastD p

/-- Value of a digit string (`\d+` capture) as a natural number. -/
def digitsToNat (ds : List Char) : Nat :=
  ds.foldl (fun n c => 10 * n + (c.toNat - '0'.toNat)) 0

/-- Python `float()` applied to a captured decimal string of the shape
`digits` or `digits.digits?` (all the regex captures in this program have
that shape): exact rational value. -/
def decimalToRat (cap : List Char) : ℚ :=
  let intPart := cap.takeWhile Char.isDigit
  let rest := cap.dropWhile Char.isDigit
  let frac := match rest with
    | '.' :: ds => ds.takeWhile Char.isDigit
    | _ => []
  if frac.isEmpty then (digitsToNat intPart : ℚ)
  else (digitsToNat intPart : ℚ) + (digitsToNat frac : ℚ) / (10 : ℚ) ^ frac.length

/-- Python `str()`/`repr` of the float values this program interpolates into
messages.  All coverage values the program parses are integral, for which
Python prints `NN.0`; non-integral rationals (possible for thresholds read
from config) are rendered via `Rat`'s own printer, which only affects
message text no claim depends on. -/
def pyFloatRepr (q : ℚ) : String :=
  if q.den = 1 then toString q.num ++ ".0" else toString q

/-- Embedding of `ProjectType` enumeration from the source. -/
inductive ProjectType where
  | CLAUDE_PLUGIN
  | PYTHON
  | NODEJS
  | GO
  | RUST
  | GENERIC
  deriving DecidableEq, Repr

/-- Embedding of `ValidationResult` enumeration from the source (the spec's CheckOutcome). -/
inductive ValidationResult where
  | PASSED
  | FAILED
  | SKIPPED
  | WARNING
  deriving DecidableEq, Repr

/-- Embedding of `CheckResult` dataclass from the source. -/
structure CheckResult where
  name : String
  result : ValidationResult
  message : String
  details : Option String := none
  coverage : Option ℚ := none
  deriving DecidableEq, Repr

/-- Embedding of `ValidationReport` dataclass from the source. -/
structure ValidationReport where
  project_type : ProjectType
  project_path : String
  checks : List CheckResult := []
  breaking_changes : List String := []
  semver_recommendation : String := "patch"
  deriving DecidableEq, Repr

/-- Embedding of `ValidationReport.passed`: every check's result is in
`(PASSED, SKIPPED, WARNING)`. -/
def ValidationReport.passed (r : ValidationReport) : Bool :=
  r.checks.all (fun c =>
    c.result == ValidationResult.PASSED ||
    c.result == ValidationResult.SKIPPED ||
    c.result == ValidationResult.WARNING)

/-- Embedding of `ValidationReport.has_warnings`: some check's result is `WARNING`. -/
def ValidationReport.has_warnings (r : ValidationReport) : Bool :=
  r.checks.any (fun c => c.result == ValidationResult.WARNING)

/-- Outcome of `subprocess.run` as an oracle: either the process completed
with an exit code and captured output, or `subprocess.TimeoutExpired` was
raised (the 300 s bound), or `FileNotFoundError` was raised (executable not
located). -/
inductive RunResult where
  | completed (returncode : Int) (stdout stderr : String)
  | timedOut
  | fileNotFound
  deriving DecidableEq, Repr

/-- A JSON value as produced by `json.loads`, for the manifests this program
reads.  Numbers are modelled as rationals (JSON decimal literals are exact
rationals; the int/float distinction only affects message text). -/
inductive JValue where
  | null
  | bool (b : Bool)
  | num (q : ℚ)
  | str (s : String)
  | arr (xs : List JValue)
  | obj (fields : List (String × JValue))

/-- Python exceptions this program can raise or swallow. -/
inductive PyExc where
  | jsonDecodeError (msg : String)
  | attributeError
  | typeError
  | keyError
  | valueError
  | indexError
  deriving DecidableEq, Repr

/-- The external world as the program observes it: filesystem existence and
directory queries, file contents, glob results, the `json.loads` oracle
(`Except` carries the decode-error message), and the subprocess oracle
keyed on command line and working directory. -/
structure Env where
  pathExists : String → Bool
  isDir : String → Bool
  readText : String → String
  run : List String → String → RunResult
  jsonParse : String → Except String JValue
  rglobMd : String → List String
  iterdir : String → List String
  globMd : String → List String
  globYml : String → List String
  globYaml : String → List String

/-- Embedding of `run_command`: run a command, returning exit code, stdout, stderr.
`subprocess.TimeoutExpired` and `FileNotFoundError` are converted into a
synthetic exit code 1 with an explanatory message (the program only ever
calls this with non-empty command lists, so `cmd[0]` is modelled by
`headD`). -/
def run_command (env : Env) (cmd : List String) (cwd : String) : Int × String × String :=
  match env.run cmd cwd with
  | .completed c o e => (c, o, e)
  | .timedOut => (1, "", "Command timed out after 300 seconds")
  | .fileNotFound => (1, "", "Command not found: " ++ cmd.headD "")

/-- Embedding of `detect_project_type`: cascade detection over marker files. -/
def detect_project_type (env : Env) (path : String) : ProjectType :=
  if env.pathExists (pjoin (pjoin path ".claude-plugin") "plugin.json") then ProjectType.CLAUDE_PLUGIN
  else if env.pathExists (pjoin path "plugin.json") then ProjectType.CLAUDE_PLUGIN
  else if env.pathExists (pjoin path "pyproject.toml") || env.pathExists (pjoin path "setup.py") then ProjectType.PYTHON
  else if env.pathExists (pjoin path "package.json") then ProjectType.NODEJS
  else if env.pathExists (pjoin path "go.mod") then ProjectType.GO
  else if env.pathExists (pjoin path "Cargo.toml") then ProjectType.RUST
  else if env.pathExists (pjoin path ".git") then ProjectType.GENERIC
  else ProjectType.GENERIC

/-- The detection cascade as an ordered rule list, following the spec's
description: first matching rule wins, fallback `generic`. -/
def cascadeRules : List ((Env → String → Bool) × ProjectType) :=
  [ (fun env path => env.pathExists (pjoin (pjoin path ".claude-plugin") "plugin.json"), ProjectType.CLAUDE_PLUGIN),
    (fun env path => env.pathExists (pjoin path "plugin.json"), ProjectType.CLAUDE_PLUGIN),
    (fun env path => env.pathExists (pjoin path "pyproject.toml") || env.pathExists (pjoin path "setup.py"), ProjectType.PYTHON),
    (fun env path => env.pathExists (pjoin path "package.json"), ProjectType.NODEJS),
    (fun env path => env.pathExists (pjoin path "go.mod"), ProjectType.GO),
    (fun env path => env.pathExists (pjoin path "Cargo.toml"), ProjectType.RUST),
    (fun env path => env.pathExists (pjoin path ".git"), ProjectType.GENERIC) ]

/-- First matching rule in a cascade, `GENERIC` when none matches. -/
def firstMatch (env : Env) (path : String) : List ((Env → String → Bool) × ProjectType) → ProjectType
  | [] => ProjectType.GENERIC
  | r :: rs => if r.1 env path then r.2 else firstMatch env path rs

/-- Python `==` between a JSON value and a string (used by `in` on lists):
only equal string values compare equal. -/
def jvalEqStr (v : JValue) (s : String) : Bool :=
  match v with
  | .str t => t == s
  | _ => false

/-- Python `key in data` for a string key: key membership for dicts, element
membership for lists, substring test for strings, `TypeError` otherwise. -/
def pyContains (k : String) (v : JValue) : Except PyExc Bool :=
  match v with
  | .obj fields => .ok ((fields.find? (fun p => p.1 == k)).isSome)
  | .arr xs => .ok (xs.any (fun x => jvalEqStr x k))
  | .str s => .ok (pyContainsSub s k)
  | _ => .error PyExc.typeError

/-- Python `data.get(k, dflt)`: dict lookup with default; `AttributeError`
on any non-dict value. -/
def pyGet (v : JValue) (k : String) (dflt : JValue) : Except PyExc JValue :=
  match v with
  | .obj fields =>
    match fields.find? (fun p => p.1 == k) with
    | some p => .ok p.2
    | none => .ok dflt
  | _ => .error PyExc.attributeError

/-- Python `data[k]` for a string key: dict lookup (`KeyError` when absent),
`TypeError` on every other JSON value. -/
def pySubscript (v : JValue) (k : String) : Except PyExc JValue :=
  match v with
  | .obj fields =>
    match fields.find? (fun p => p.1 == k) with
    | some p => .ok p.2
    | none => .error PyExc.keyError
  | _ => .error PyExc.typeError

/-- Python `float(s)` on a string, modelled for plain decimal literals
(optional sign, `digits`, `digits.digits`, `.digits`, `digits.`), raising
`ValueError` otherwise.  (Exponent/`inf`/`nan` forms never occur in the
manifests the claims exercise.) -/
def parseFloatStr (s : String) : Option ℚ :=
  let cs := (pyStrip s).toList
  let signed : Bool × List Char :=
    match cs with
    | '-' :: r => (true, r)
    | '+' :: r => (false, r)
    | _ => (false, cs)
  let ip := signed.2.takeWhile Char.isDigit
  let rest := signed.2.dropWhile Char.isDigit
  let val : Option ℚ :=
    match rest with
    | [] => if ip.isEmpty then none else some (digitsToNat ip : ℚ)
    | '.' :: r =>
      let fp := r.takeWhile Char.isDigit
      if (r.dropWhile Char.isDigit).isEmpty ∧ ¬(ip.isEmpty ∧ fp.isEmpty) then
        some (if fp.isEmpty then (digitsToNat ip : ℚ)
              else (digitsToNat ip : ℚ) + (digitsToNat fp : ℚ) / (10 : ℚ) ^ fp.length)
      else none
    | _ => none
  val.map (fun q => if signed.1 then -q else q)

/-- Python `float(v)` on a JSON value: numbers as themselves, booleans as
0/1, strings via `parseFloatStr`, `TypeError` on the rest. -/
def pyFloat (v : JValue) : Except PyExc ℚ :=
  match v with
  | .num q => .ok q
  | .bool b => .ok (if b then 1 else 0)
  | .str s =>
    match parseFloatStr s with
    | some q => .ok q
    | none => .error PyExc.valueError
  | _ => .error PyExc.typeError

/-- Python `str(v)` for a JSON value, used only inside report messages. -/
def pyStr (v : JValue) : String :=
  match v with
  | .str s => s
  | .num q => pyFloatRepr q
  | .bool true => "True"
  | .bool false => "False"
  | .null => "None"
  | .arr _ => "[...]"
  | .obj _ => "\x7b...\x7d"

/-- Leftmost-match regex search: try the anchored matcher at every start
position, leftmost success wins (the behaviour of `re.search` for the
three patterns of this program, whose adjacent character classes are
disjoint, so greedy matching without backtracking is exact). -/
def searchAux {α : Type} (tryAt : List Char → Option α) : List Char → Option α
  | [] => tryAt []
  | c :: rest =>
    match tryAt (c :: rest) with
    | some x => some x
    | none => searchAux tryAt rest

/-- Greedy `\d+`: maximal digit run, failing on zero digits; returns the
digits and the remaining input. -/
def matchDigits (cs : List Char) : Option (List Char × List Char) :=
  let ds := cs.takeWhile Char.isDigit
  if ds.isEmpty then none else some (ds, cs.dropWhile Char.isDigit)

/-- Greedy `\s+` (Python whitespace class): failing on zero characters. -/
def matchSpaces1 (cs : List Char) : Option (List Char) :=
  if (cs.takeWhile pyIsSpace).isEmpty then none else some (cs.dropWhile pyIsSpace)

/-- Anchored matcher for `fail_under\s*=\s*(\d+(?:\.\d+)?)`, returning the
captured group. -/
def tryFailUnderAt (cs : List Char) : Option (List Char) :=
  if "fail_under".toList.isPrefixOf cs then
    let cs2 := (cs.drop 10).dropWhile pyIsSpace
    match cs2 with
    | '=' :: cs3 =>
      match matchDigits (cs3.dropWhile pyIsSpace) with
      | none => none
      | some (ds, rest) =>
        match rest with
        | '.' :: r2 =>
          let fs := r2.takeWhile Char.isDigit
          if fs.isEmpty then some ds else some (ds ++ '.' :: fs)
        | _ => some ds
    | _ => none
  else none

/-- Embedding of `re.search(r'fail_under\s*=\s*(\d+(?:\.\d+)?)', content)` followed by
`float(match.group(1))`. -/
def findFailUnder (content : String) : Option ℚ :=
  (searchAux tryFailUnderAt content.toList).map decimalToRat

/-- Embedding of `get_coverage_threshold`'s `try` body: `.ok (some v)` when a threshold
was found, `.ok none` when the lookup fell through, `.error e` when the
body raised (swallowed by the caller). -/
def coverageThresholdBody (env : Env) (path : String) (pt : ProjectType) :
    Except PyExc (Option ℚ) :=
  match pt with
  | ProjectType.PYTHON =>
    if env.pathExists (pjoin path "pyproject.toml") then
      .ok (findFailUnder (env.readText (pjoin path "pyproject.toml")))
    else .ok none
  | ProjectType.NODEJS =>
    if env.pathExists (pjoin path "package.json") then
      match env.jsonParse (env.readText (pjoin path "package.json")) with
      | .error m => .error (PyExc.jsonDecodeError m)
      | .ok data =>
        (pyGet data "jest" (JValue.obj [])).bind fun jest =>
        (pyGet jest "coverageThreshold" (JValue.obj [])).bind fun ct =>
        (pyGet ct "global" (JValue.obj [])).bind fun cov =>
        (pyContains "lines" cov).bind fun b =>
        if b then (pySubscript cov "lines").bind fun v => (pyFloat v).map some
        else .ok none
    else .ok none
  | _ => .ok none

/-- Embedding of `get_coverage_threshold`: threshold from project config, or the supplied
default; every exception in the body is swallowed (`except Exception: pass`)
and falls through to the default. -/
def get_coverage_threshold (env : Env) (path : String) (project_type : ProjectType)
    (default : ℚ) : ℚ :=
  match coverageThresholdBody env path project_type with
  | .ok (some v) => v
  | _ => default

/-- Embedding of `[f for f in required if f not in data]`: the required manifest fields
absent from `data`; evaluating `f not in data` can raise (`TypeError` on a
number), aborting the comprehension. -/
def filterNotInJ (data : JValue) : List String → Except PyExc (List String)
  | [] => .ok []
  | f :: fs =>
    (pyContains f data).bind fun b =>
    (filterNotInJ data fs).map fun rest => if b then rest else f :: rest

/-- The `plugin.json` section of `validate_claude_plugin`: checks appended,
plus the exception the section escaped with, if any (only
`json.JSONDecodeError` is caught by the source's `try`). -/
def pluginJsonCheck (env : Env) (path : String) : List CheckResult × Option PyExc :=
  let pDot := pjoin (pjoin path ".claude-plugin") "plugin.json"
  let plugin_json := if env.pathExists pDot then pDot else pjoin path "plugin.json"
  if env.pathExists plugin_json then
    match env.jsonParse (env.readText plugin_json) with
    | .error m =>
      ([⟨"plugin.json", ValidationResult.FAILED, "Invalid JSON: " ++ m, none, none⟩], none)
    | .ok data =>
      match filterNotInJ data ["name", "version", "description"] with
      | .error e => ([], some e)
      | .ok missing =>
        if missing = [] then
          match pyGet data "version" (JValue.str "unknown") with
          | .error e => ([], some e)
          | .ok v =>
            ([⟨"plugin.json", ValidationResult.PASSED,
               "Valid plugin.json (v" ++ pyStr v ++ ")", none, none⟩], none)
        else
          ([⟨"plugin.json", ValidationResult.FAILED,
             "Missing required fields: " ++ String.intercalate ", " missing, none, none⟩], none)
  else
    ([⟨"plugin.json", ValidationResult.FAILED, "plugin.json not found", none, none⟩], none)

/-- The agents section of `validate_claude_plugin`: appended only when the
`agents` directory exists and contains markdown files; counts, among the
first 10 files, those whose content starts with the `---` frontmatter
marker. -/
def agentsChecks (env : Env) (path : String) : List CheckResult :=
  let agents_dir := pjoin path "agents"
  if env.pathExists agents_dir then
    let agent_files := env.rglobMd agents_dir
    let valid_agents :=
      ((agent_files.take 10).filter (fun f => pyStartsWith (env.readText f) "---")).length
    if agent_files.isEmpty then []
    else
      [⟨"agents",
        if valid_agents > 0 then ValidationResult.PASSED else ValidationResult.WARNING,
        "Found " ++ toString agent_files.length ++ " agents, " ++
          toString valid_agents ++ " with valid frontmatter", none, none⟩]
  else []

/-- The skills section of `validate_claude_plugin`: appended when the
`skills` directory exists; counts subdirectories carrying a `SKILL.md`. -/
def skillsChecks (env : Env) (path : String) : List CheckResult :=
  let skills_dir := pjoin path "skills"
  if env.pathExists skills_dir then
    let skill_dirs := (env.iterdir skills_dir).filter env.isDir
    let valid_skills := (skill_dirs.filter (fun d => env.pathExists (pjoin d "SKILL.md"))).length
    [⟨"skills",
      if valid_skills > 0 then ValidationResult.PASSED else ValidationResult.WARNING,
      "Found " ++ toString skill_dirs.length ++ " skill directories, " ++
        toString valid_skills ++ " with SKILL.md", none, none⟩]
  else []

/-- The commands section of `validate_claude_plugin`: appended when the
`commands` directory exists, always `passed`. -/
def commandsChecks (env : Env) (path : String) : List CheckResult :=
  let commands_dir := pjoin path "commands"
  if env.pathExists commands_dir then
    [⟨"commands", ValidationResult.PASSED,
      "Found " ++ toString (env.globMd commands_dir).length ++ " commands", none, none⟩]
  else []

/-- Embedding of `validate_claude_plugin`: manifest, agents, skills and commands checks in
order; an uncaught exception in the manifest section aborts the pipeline
with the checks appended so far. -/
def validate_claude_plugin (env : Env) (path : String) : List CheckResult × Option PyExc :=
  match pluginJsonCheck env path with
  | (cs, some e) => (cs, some e)
  | (cs, none) =>
    (cs ++ agentsChecks env path ++ skillsChecks env path ++ commandsChecks env path, none)

/-- Anchored matcher for `TOTAL\s+\d+\s+\d+\s+(\d+)%` (pytest-cov summary
line), returning the captured coverage digits. -/
def tryTotalAt (cs : List Char) : Option (List Char) :=
  if "TOTAL".toList.isPrefixOf cs then
    match matchSpaces1 (cs.drop 5) with
    | none => none
    | some c1 =>
      match matchDigits c1 with
      | none => none
      | some (_, c2) =>
        match matchSpaces1 c2 with
        | none => none
        | some c3 =>
          match matchDigits c3 with
          | none => none
          | some (_, c4) =>
            match matchSpaces1 c4 with
            | none => none
            | some c5 =>
              match matchDigits c5 with
              | none => none
              | some (ds, c6) =>
                match c6 with
                | '%' :: _ => some ds
                | _ => none
  else none

/-- The tests+coverage step of `validate_python`.  Mirrors the source's
`if coverage and coverage < coverage_threshold`: the Python truthiness test
makes a parsed coverage of `0` take the `passed` branch. -/
def pyTestsCheck (env : Env) (path : String) (coverage_threshold : ℚ) : List CheckResult :=
  let has_pytest := env.pathExists (pjoin path "pytest.ini") ||
                    env.pathExists (pjoin path "pyproject.toml")
  if has_pytest then
    let r := run_command env
      ["python", "-m", "pytest", "--cov", ".", "--cov-report=term-missing", "-q"] path
    if r.1 = 0 then
      let coverage : Option ℚ :=
        (searchAux tryTotalAt r.2.1.toList).map (fun ds => (digitsToNat ds : ℚ))
      match coverage with
      | some cv =>
        if cv ≠ 0 ∧ cv < coverage_threshold then
          [⟨"tests+coverage", ValidationResult.FAILED,
            "Coverage " ++ pyFloatRepr cv ++ "% below threshold " ++
              pyFloatRepr coverage_threshold ++ "%", none, some cv⟩]
        else
          [⟨"tests+coverage", ValidationResult.PASSED,
            if cv ≠ 0 then "Tests passed, coverage: " ++ pyFloatRepr cv ++ "%"
            else "Tests passed", none, some cv⟩]
      | none => [⟨"tests+coverage", ValidationResult.PASSED, "Tests passed", none, none⟩]
    else
      [⟨"tests", ValidationResult.FAILED, "Tests failed",
        some (if r.2.2 ≠ "" then pyTake 500 r.2.2 else pyTake 500 r.2.1), none⟩]
  else [⟨"tests", ValidationResult.SKIPPED, "No pytest configuration found", none, none⟩]

/-- The lint step of `validate_python`: ruff, with a flake8 fallback. -/
def pyLintCheck (env : Env) (path : String) : List CheckResult :=
  let r := run_command env ["ruff", "check", "."] path
  if r.1 = 0 then [⟨"lint (ruff)", ValidationResult.PASSED, "No lint errors", none, none⟩]
  else
    let r2 := run_command env ["flake8", "."] path
    if r2.1 = 0 then [⟨"lint (flake8)", ValidationResult.PASSED, "No lint errors", none, none⟩]
    else [⟨"lint", ValidationResult.FAILED, "Lint errors found", some (pyTake 500 r.2.1), none⟩]

/-- The type-check step of `validate_python` (warning, never failed). -/
def pyTypecheckCheck (env : Env) (path : String) : List CheckResult :=
  let r := run_command env ["mypy", ".", "--ignore-missing-imports"] path
  if r.1 = 0 then [⟨"typecheck (mypy)", ValidationResult.PASSED, "No type errors", none, none⟩]
  else [⟨"typecheck", ValidationResult.WARNING, "Type errors found (non-blocking)",
         some (pyTake 500 r.2.1), none⟩]

/-- The security step of `validate_python` (bandit). -/
def pySecurityCheck (env : Env) (path : String) : List CheckResult :=
  let r := run_command env ["bandit", "-r", ".", "-q"] path
  if r.1 = 0 then [⟨"security (bandit)", ValidationResult.PASSED, "No security issues", none, none⟩]
  else [⟨"security", ValidationResult.WARNING, "Security warnings found",
         some (pyTake 500 r.2.1), none⟩]

/-- The dependency-vulnerability step of `validate_python` (pip-audit). -/
def pyDepsCheck (env : Env) (path : String) : List CheckResult :=
  let r := run_command env ["pip-audit"] path
  if r.1 = 0 then
    [⟨"dependencies (pip-audit)", ValidationResult.PASSED, "No vulnerable dependencies", none, none⟩]
  else [⟨"dependencies", ValidationResult.WARNING, "Dependency vulnerabilities found",
         some (pyTake 500 r.2.1), none⟩]

/-- Embedding of `validate_python`: tests+coverage, lint (with fallback), type check,
security scan, dependency audit, in order. -/
def validate_python (env : Env) (path : String) (coverage_threshold : ℚ) : List CheckResult :=
  pyTestsCheck env path coverage_threshold ++ pyLintCheck env path ++
    pyTypecheckCheck env path ++ pySecurityCheck env path ++ pyDepsCheck env path

/-- Embedding of `validate_nodejs`: manifest gate, tests, lint, audit.  The manifest is
parsed with a bare `json.loads` — a malformed `package.json` escapes as a
`JSONDecodeError` with no CheckResult appended. -/
def validate_nodejs (env : Env) (path : String) (_coverage_threshold : ℚ) :
    List CheckResult × Option PyExc :=
  if ¬ env.pathExists (pjoin path "package.json") then
    ([⟨"package.json", ValidationResult.FAILED, "package.json not found", none, none⟩], none)
  else
    match env.jsonParse (env.readText (pjoin path "package.json")) with
    | .error m => ([], some (PyExc.jsonDecodeError m))
    | .ok pkg =>
      match pyGet pkg "scripts" (JValue.obj []) with
      | .error e => ([], some e)
      | .ok scripts =>
        match pyContains "test" scripts with
        | .error e => ([], some e)
        | .ok hasTest =>
          let testChecks :=
            if hasTest then
              let r := run_command env ["npm", "test"] path
              if r.1 = 0 then [⟨"tests", ValidationResult.PASSED, "Tests passed", none, none⟩]
              else [⟨"tests", ValidationResult.FAILED, "Tests failed",
                     some (if r.2.2 ≠ "" then pyTake 500 r.2.2 else pyTake 500 r.2.1), none⟩]
            else [⟨"tests", ValidationResult.SKIPPED, "No test script defined", none, none⟩]
          match pyContains "lint" scripts with
          | .error e => (testChecks, some e)
          | .ok hasLint =>
            let lintChecks :=
              if hasLint then
                let r := run_command env ["npm", "run", "lint"] path
                if r.1 = 0 then [⟨"lint", ValidationResult.PASSED, "No lint errors", none, none⟩]
                else [⟨"lint", ValidationResult.FAILED, "Lint errors found",
                       some (pyTake 500 r.2.1), none⟩]
              else
                let r := run_command env ["npx", "eslint", "."] path
                if r.1 = 0 then
                  [⟨"lint (eslint)", ValidationResult.PASSED, "No lint errors", none, none⟩]
                else [⟨"lint", ValidationResult.SKIPPED, "No lint configuration", none, none⟩]
            let r := run_command env ["npm", "audit", "--production"] path
            let auditChecks :=
              if r.1 = 0 then
                [⟨"security (npm audit)", ValidationResult.PASSED, "No vulnerabilities", none, none⟩]
              else [⟨"security", ValidationResult.WARNING, "Vulnerabilities found",
                     some (pyTake 500 r.2.1), none⟩]
            (testChecks ++ lintChecks ++ auditChecks, none)

/-- Anchored matcher for `coverage: (\d+\.?\d*)%` (go test output),
returning the captured decimal. -/
def tryGoCovAt (cs : List Char) : Option (List Char) :=
  if "coverage: ".toList.isPrefixOf cs then
    match matchDigits (cs.drop 10) with
    | none => none
    | some (ds, c2) =>
      match c2 with
      | '.' :: r =>
        let fs := r.takeWhile Char.isDigit
        match r.dropWhile Char.isDigit with
        | '%' :: _ => some (ds ++ '.' :: fs)
        | _ => none
      | '%' :: _ => some ds
      | _ => none
  else none

/-- The tests+coverage step of `validate_go` (same truthiness pattern as the
python pipeline). -/
def goTestsCheck (env : Env) (path : String) (coverage_threshold : ℚ) : List CheckResult :=
  let r := run_command env ["go", "test", "-cover", "-race", "./..."] path
  if r.1 = 0 then
    let coverage : Option ℚ := (searchAux tryGoCovAt r.2.1.toList).map decimalToRat
    match coverage with
    | some cv =>
      if cv ≠ 0 ∧ cv < coverage_threshold then
        [⟨"tests+coverage", ValidationResult.FAILED,
          "Coverage " ++ pyFloatRepr cv ++ "% below threshold " ++
            pyFloatRepr coverage_threshold ++ "%", none, some cv⟩]
      else
        [⟨"tests+coverage", ValidationResult.PASSED,
          if cv ≠ 0 then "Tests passed, coverage: " ++ pyFloatRepr cv ++ "%"
          else "Tests passed", none, some cv⟩]
    | none => [⟨"tests+coverage", ValidationResult.PASSED, "Tests passed", none, none⟩]
  else
    [⟨"tests", ValidationResult.FAILED, "Tests failed",
      some (if r.2.2 ≠ "" then pyTake 500 r.2.2 else pyTake 500 r.2.1), none⟩]

/-- The meta-linter step of `validate_go` (warning on failure). -/
def goLintCheck (env : Env) (path : String) : List CheckResult :=
  let r := run_command env ["golangci-lint", "run"] path
  if r.1 = 0 then
    [⟨"lint (golangci-lint)", ValidationResult.PASSED, "No lint errors", none, none⟩]
  else [⟨"lint", ValidationResult.WARNING, "Lint warnings found", some (pyTake 500 r.2.1), none⟩]

/-- The vet step of `validate_go` (warning on failure). -/
def goVetCheck (env : Env) (path : String) : List CheckResult :=
  let r := run_command env ["go", "vet", "./..."] path
  if r.1 = 0 then [⟨"vet", ValidationResult.PASSED, "No issues", none, none⟩]
  else [⟨"vet", ValidationResult.WARNING, "Vet warnings found", some (pyTake 500 r.2.2), none⟩]

/-- Embedding of `validate_go`: tests+coverage, meta-linter, vet. -/
def validate_go (env : Env) (path : String) (coverage_threshold : ℚ) : List CheckResult :=
  goTestsCheck env path coverage_threshold ++ goLintCheck env path ++ goVetCheck env path

/-- The test step of `validate_rust`. -/
def rustTestsCheck (env : Env) (path : String) : List CheckResult :=
  let r := run_command env ["cargo", "test"] path
  if r.1 = 0 then [⟨"tests", ValidationResult.PASSED, "Tests passed", none, none⟩]
  else [⟨"tests", ValidationResult.FAILED, "Tests failed",
         some (if r.2.2 ≠ "" then pyTake 500 r.2.2 else pyTake 500 r.2.1), none⟩]

/-- The clippy step of `validate_rust` (warning on failure). -/
def rustClippyCheck (env : Env) (path : String) : List CheckResult :=
  let r := run_command env ["cargo", "clippy", "--", "-D", "warnings"] path
  if r.1 = 0 then [⟨"lint (clippy)", ValidationResult.PASSED, "No lint errors", none, none⟩]
  else [⟨"lint", ValidationResult.WARNING, "Clippy warnings found", some (pyTake 500 r.2.2), none⟩]

/-- The cargo-audit step of `validate_rust` (warning on findings). -/
def rustAuditCheck (env : Env) (path : String) : List CheckResult :=
  let r := run_command env ["cargo", "audit"] path
  if r.1 = 0 then
    [⟨"security (cargo audit)", ValidationResult.PASSED, "No vulnerabilities", none, none⟩]
  else [⟨"security", ValidationResult.WARNING, "Security advisories found",
         some (pyTake 500 r.2.1), none⟩]

/-- The formatting step of `validate_rust` (the one blocking Rust check). -/
def rustFmtCheck (env : Env) (path : String) : List CheckResult :=
  let r := run_command env ["cargo", "fmt", "--check"] path
  if r.1 = 0 then [⟨"format", ValidationResult.PASSED, "Code is formatted", none, none⟩]
  else [⟨"format", ValidationResult.FAILED, "Code needs formatting (run: cargo fmt)", none, none⟩]

/-- Embedding of `validate_rust`: tests, clippy, audit, formatting. -/
def validate_rust (env : Env) (path : String) (_coverage_threshold : ℚ) : List CheckResult :=
  rustTestsCheck env path ++ rustClippyCheck env path ++
    rustAuditCheck env path ++ rustFmtCheck env path

/-- Embedding of `validate_changelog`: warning when no `CHANGELOG.md`, passed iff it
contains a literal `## [Unreleased]` heading. -/
def validate_changelog (env : Env) (path : String) : List CheckResult :=
  if ¬ env.pathExists (pjoin path "CHANGELOG.md") then
    [⟨"changelog", ValidationResult.WARNING, "CHANGELOG.md not found", none, none⟩]
  else if pyContainsSub (env.readText (pjoin path "CHANGELOG.md")) "## [Unreleased]" then
    [⟨"changelog", ValidationResult.PASSED, "CHANGELOG.md has [Unreleased] section", none, none⟩]
  else
    [⟨"changelog", ValidationResult.WARNING, "CHANGELOG.md missing [Unreleased] section", none, none⟩]

/-- One line of `git diff --name-status` output, processed as the source's
loop body does: split on tabs, dispatch on the status letter, filter out
paths starting with `.` or `test`; `parts[1]` on a tab-less line raises
`IndexError`. -/
def bcLineEntry (line : String) : Except PyExc (Option String) :=
  let parts := pySplit '\t' line
  let status := parts.headD ""
  if pyStartsWith status "D" then
    match parts.get? 1 with
    | none => .error PyExc.indexError
    | some file_path =>
      if ¬ pyStartsWith file_path "." ∧ ¬ pyStartsWith file_path "test" then
        .ok (some ("DELETED: " ++ file_path))
      else .ok none
  else if pyStartsWith status "R" then
    match parts.get? 1 with
    | none => .error PyExc.indexError
    | some old_path =>
      let new_path := (parts.get? 2).getD "unknown"
      if ¬ pyStartsWith old_path "." ∧ ¬ pyStartsWith old_path "test" then
        .ok (some ("RENAMED: " ++ old_path ++ " -> " ++ new_path))
      else .ok none
  else .ok none

/-- The source's loop over diff lines: skip falsy (empty) lines, collect
breaking entries in order, abort on the first raised exception. -/
def bcCollect : List String → Except PyExc (List String)
  | [] => .ok []
  | l :: ls =>
    if l = "" then bcCollect ls
    else
      (bcLineEntry l).bind fun o =>
      (bcCollect ls).map fun rest =>
        match o with
        | some e => e :: rest
        | none => rest

/-- Result of `detect_breaking_changes` on the report it mutates: checks
appended, breaking-change list assigned, semver recommendation set (if
any), and the exception it escaped with (if any). -/
structure BCOut where
  checks : List CheckResult
  breaking : List String
  semver : Option String
  exc : Option PyExc
  deriving DecidableEq, Repr

/-- Embedding of `detect_breaking_changes`: resolve the last tag (skip when none), diff
against it (return silently when the diff command fails), classify deleted
and renamed paths, then append a warning (and recommend `major`) or a
passed check. -/
def detect_breaking_changes (env : Env) (path : String) : BCOut :=
  let r := run_command env ["git", "describe", "--tags", "--abbrev=0"] path
  if r.1 ≠ 0 then
    ⟨[⟨"breaking-changes", ValidationResult.SKIPPED, "No previous tags found", none, none⟩],
     [], none, none⟩
  else
    let last_tag := pyStrip r.2.1
    let r2 := run_command env ["git", "diff", "--name-status", last_tag ++ "..HEAD"] path
    if r2.1 ≠ 0 then ⟨[], [], none, none⟩
    else
      match bcCollect (pySplit '\n' (pyStrip r2.2.1)) with
      | .error e => ⟨[], [], none, some e⟩
      | .ok breaking =>
        if breaking ≠ [] then
          ⟨[⟨"breaking-changes", ValidationResult.WARNING,
             "Found " ++ toString breaking.length ++ " potential breaking change(s)",
             some (String.intercalate "\n" (breaking.take 10)), none⟩],
           breaking, some "major", none⟩
        else
          ⟨[⟨"breaking-changes", ValidationResult.PASSED, "No breaking changes detected", none, none⟩],
           breaking, none, none⟩

/-- Embedding of `check_ci_will_pass`'s per-path check construction (first existing CI
marker path wins). -/
def ciCheckFor (env : Env) (p : String) : CheckResult :=
  if env.isDir p then
    ⟨"ci-config", ValidationResult.PASSED,
     "Found " ++ toString ((env.globYml p).length + (env.globYaml p).length) ++
       " CI workflow(s) in " ++ pathName p, none, none⟩
  else
    ⟨"ci-config", ValidationResult.PASSED, "Found CI config: " ++ pathName p, none, none⟩

/-- Embedding of `check_ci_will_pass`: passed on the first existing CI marker path,
warning when none exists. -/
def check_ci_will_pass (env : Env) (path : String) : List CheckResult :=
  let ci_paths := [pjoin (pjoin path ".github") "workflows", pjoin path ".gitlab-ci.yml",
                   pjoin path "Jenkinsfile", pjoin path ".circleci"]
  match ci_paths.find? env.pathExists with
  | some p => [ciCheckFor env p]
  | none => [⟨"ci-config", ValidationResult.WARNING, "No CI configuration found", none, none⟩]

/-- Truthiness-filtered name test used by the report assembler:
`"feat" in c.name.lower()`. -/
def nameHasFeat (c : CheckResult) : Bool :=
  pyContainsSub (pyLower c.name) "feat"

/-- Embedding of `validate_project`: detection (unless a type is forced), threshold
resolution, the three common checks, the matching ecosystem pipeline, and
the final semver recomputation.  An exception escaping a pipeline aborts
the run with no report (`Except.error`). -/
def validate_project (env : Env) (path : String) (coverage_threshold : ℚ)
    (forced : Option ProjectType) : Except PyExc ValidationReport :=
  let project_type := match forced with
    | some t => t
    | none => detect_project_type env path
  let actual_threshold := get_coverage_threshold env path project_type coverage_threshold
  let changelogChecks := validate_changelog env path
  let bc := detect_breaking_changes env path
  match bc.exc with
  | some e => .error e
  | none =>
    let ciChecks := check_ci_will_pass env path
    let pipeline : List CheckResult × Option PyExc :=
      match project_type with
      | ProjectType.CLAUDE_PLUGIN => validate_claude_plugin env path
      | ProjectType.PYTHON => (validate_python env path actual_threshold, none)
      | ProjectType.NODEJS => validate_nodejs env path actual_threshold
      | ProjectType.GO => (validate_go env path actual_threshold, none)
      | ProjectType.RUST => (validate_rust env path actual_threshold, none)
      | ProjectType.GENERIC =>
        ([⟨"project-type", ValidationResult.WARNING,
           "Generic project - minimal validation available", none, none⟩], none)
    match pipeline.2 with
    | some e => .error e
    | none =>
      let checks := changelogChecks ++ bc.checks ++ ciChecks ++ pipeline.1
      let semver :=
        if bc.breaking ≠ [] then "major"
        else if (checks.filter (fun c => c.result == ValidationResult.PASSED)).any nameHasFeat then
          "minor"
        else "patch"
      .ok ⟨project_type, path, checks, bc.breaking, semver⟩

/-- The breaking entry a diff line yields, stated from the claim's words:
for a non-empty line whose status starts with `D` (resp. `R`), the deleted
(resp. renamed) path is recorded exactly when it does not start with a
`.`-prefix and does not start with a `test`-prefix. -/
def claimEntry (line : String) : Option String :=
  if line = "" then none
  else
    match pySplit '\t' line with
    | [] => none
    | status :: rest =>
      if pyStartsWith status "D" then
        match rest with
        | file_path :: _ =>
          if ¬ pyStartsWith file_path "." ∧ ¬ pyStartsWith file_path "test" then
            some ("DELETED: " ++ file_path)
          else none
        | [] => none
      else if pyStartsWith status "R" then
        match rest with
        | old_path :: rest2 =>
          if ¬ pyStartsWith old_path "." ∧ ¬ pyStartsWith old_path "test" then
            some ("RENAMED: " ++ old_path ++ " -> " ++ (rest2.headD "unknown"))
          else none
        | [] => none
      else none

/-- The claim-side breaking list for a raw diff output. -/
def claimBreaking (diffOut : String) : List String :=
  (pySplit '\n' (pyStrip diffOut)).filterMap claimEntry

/-- Well-formedness of one diff line: a non-empty line whose status starts
with `D` or `R` carries at least a path field after the tab (true of every
line `git diff --name-status` prints). -/
def bcLineWF (line : String) : Prop :=
  line ≠ "" →
    (pyStartsWith ((pySplit '\t' line).headD "") "D" = true ∨
     pyStartsWith ((pySplit '\t' line).headD "") "R" = true) →
    2 ≤ (pySplit '\t' line).length

instance (line : String) : Decidable (bcLineWF line) := by
  unfold bcLineWF
  infer_instance

/-- An inert environment: nothing exists, every file is empty, every
command's executable is missing, nothing parses as JSON. -/
def baseEnv : Env :=
  { pathExists := fun _ => false
    isDir := fun _ => false
    readText := fun _ => ""
    run := fun _ _ => RunResult.fileNotFound
    jsonParse := fun _ => Except.error "Expecting value: line 1 column 1 (char 0)"
    rglobMd := fun _ => []
    iterdir := fun _ => []
    globMd := fun _ => []
    globYml := fun _ => []
    globYaml := fun _ => [] }

/-- A python project whose test run exits 0 with a parsed total coverage of
0%. -/
def envPyZero : Env :=
  { baseEnv with
    pathExists := fun p => p = "proj/pyproject.toml"
    run := fun _ _ => RunResult.completed 0 "TOTAL 100 100 0%" "" }

/-- A python project whose test run exits 0 with a parsed total coverage of
90% (the spec's end-to-end scenario C). -/
def envPyNinety : Env :=
  { baseEnv with
    pathExists := fun p => p = "proj/pyproject.toml"
    run := fun _ _ => RunResult.completed 0 "TOTAL 100 10 90%" "" }

/-- A Node.js project whose `package.json` exists but holds malformed
JSON. -/
def envNodeBad : Env :=
  { baseEnv with
    pathExists := fun p => p = "proj/package.json"
    readText := fun _ => "not json" }

/-- An environment where a version tag exists but the diff command against
it fails. -/
def envBcDiffFail : Env :=
  { baseEnv with
    run := fun cmd _ =>
      if cmd.get? 1 = some "describe" then RunResult.completed 0 "v1.0\n" ""
      else if cmd.get? 1 = some "diff" then RunResult.completed 1 "" "fatal: bad revision"
      else RunResult.fileNotFound }

/-- An environment with one deleted non-hidden, non-test path and one
deleted path under a hidden prefix since the last tag. -/
def envBcScenario : Env :=
  { baseEnv with
    run := fun cmd _ =>
      if cmd.get? 1 = some "describe" then RunResult.completed 0 "v1.0\n" ""
      else if cmd.get? 1 = some "diff" then
        RunResult.completed 0 "D\tsrc/a.py\nD\t.hidden/b\n" ""
      else RunResult.fileNotFound }

/-- A Node.js project with an existing, well-formed but empty manifest. -/
def envNodeEmpty : Env :=
  { baseEnv with
    pathExists := fun p => p = "proj/package.json"
    jsonParse := fun _ => Except.ok (JValue.obj []) }

/-- A result is in the tuple `(PASSED, SKIPPED, WARNING)` iff it is not
`FAILED`. -/
theorem vr_not_failed_iff (v : ValidationResult) :
    ((v == ValidationResult.PASSED || v == ValidationResult.SKIPPED ||
      v == ValidationResult.WARNING) = true) ↔ v ≠ ValidationResult.FAILED := by
  cases v <;> decide

/-- C1: a `ValidationReport`'s derived `passed` property is true iff no
`CheckResult` in its checks has outcome `failed`, and `has_warnings` is true
iff some `CheckResult` has outcome `warning` — for every report, hence
regardless of how many results are `warning` or `skipped`. -/
theorem C1_passed_iff_no_failed (r : ValidationReport) :
    (r.passed = true ↔ ∀ c ∈ r.checks, c.result ≠ ValidationResult.FAILED) ∧
    (r.has_warnings = true ↔ ∃ c ∈ r.checks, c.result = ValidationResult.WARNING) := by
  constructor
  · rw [ValidationReport.passed, List.all_eq_true]
    exact ⟨fun h c hc => (vr_not_failed_iff c.result).mp (h c hc),
           fun h c hc => (vr_not_failed_iff c.result).mpr (h c hc)⟩
  · rw [ValidationReport.has_warnings, List.any_eq_true]
    constructor
    · rintro ⟨c, hc, hw⟩
      exact ⟨c, hc, by simpa using hw⟩
    · rintro ⟨c, hc, hw⟩
      exact ⟨c, hc, by simpa using hw⟩

/-- C6: `detect_project_type` returns the type of the first matching rule in
the fixed cascade order (plugin marker in the dot-prefixed metadata
directory, plugin marker at root, Python markers, Node.js marker, Go
marker, Rust marker, version-control directory, otherwise `generic`); it is
total and an unrecognized layout resolves to `generic`; a directory with
both a plugin marker and a Go module marker resolves to `claude-plugin`. -/
theorem C6_detect_cascade (env : Env) (path : String) :
    detect_project_type env path = firstMatch env path cascadeRules ∧
    ((∀ m ∈ [pjoin (pjoin path ".claude-plugin") "plugin.json", pjoin path "plugin.json",
             pjoin path "pyproject.toml", pjoin path "setup.py", pjoin path "package.json",
             pjoin path "go.mod", pjoin path "Cargo.toml"],
        env.pathExists m = false) →
      detect_project_type env path = ProjectType.GENERIC) ∧
    (env.pathExists (pjoin path "plugin.json") = true →
     env.pathExists (pjoin path "go.mod") = true →
     env.pathExists (pjoin (pjoin path ".claude-plugin") "plugin.json") = false →
      detect_project_type env path = ProjectType.CLAUDE_PLUGIN) := by
  refine ⟨rfl, fun h => ?_, fun h1 h2 h3 => ?_⟩
  · simp only [List.mem_cons, List.not_mem_nil, or_false, forall_eq_or_imp, forall_eq] at h
    obtain ⟨h1, h2, h3, h4, h5, h6, h7⟩ := h
    simp only [detect_project_type, h1, h2, h3, h4, h5, h6, h7]
    simp
  · simp only [detect_project_type, h1, h3]
    simp

/-- Witness for C6 at a concrete environment containing both a root plugin
marker and a Go module marker. -/
theorem C6_detect_cascade_witness :
    detect_project_type
      { pathExists := fun p => p = "proj/plugin.json" || p = "proj/go.mod",
        isDir := fun _ => false, readText := fun _ => "",
        run := fun _ _ => RunResult.fileNotFound,
        jsonParse := fun _ => Except.error "no parse",
        rglobMd := fun _ => [], iterdir := fun _ => [],
        globMd := fun _ => [], globYml := fun _ => [], globYaml := fun _ => [] }
      "proj" = ProjectType.CLAUDE_PLUGIN :=
  (C6_detect_cascade _ "proj").2.2 (by decide) (by decide) (by decide)

/-- C8: the Process Runner returns an (exit code, stdout, stderr) triple in
every case; on timeout and on a missing executable it returns the synthetic
non-zero exit code 1 together with an explanatory message, and on
completion it returns the process's own triple. -/
theorem C8_run_command_total (env : Env) (cmd : List String) (cwd : String) :
    (env.run cmd cwd = RunResult.timedOut →
      run_command env cmd cwd = (1, "", "Command timed out after 300 seconds") ∧ (1 : Int) ≠ 0) ∧
    (env.run cmd cwd = RunResult.fileNotFound →
      run_command env cmd cwd = (1, "", "Command not found: " ++ cmd.headD "") ∧ (1 : Int) ≠ 0) ∧
    (∀ c o e, env.run cmd cwd = RunResult.completed c o e →
      run_command env cmd cwd = (c, o, e)) := by
  refine ⟨fun h => ?_, fun h => ?_, fun c o e h => ?_⟩ <;>
    simp [run_command, h]

/-- Witness for C8 at a concrete environment whose subprocess oracle times
out. -/
theorem C8_run_command_total_witness :
    run_command
      { pathExists := fun _ => false, isDir := fun _ => false,
        readText := fun _ => "", run := fun _ _ => RunResult.timedOut,
        jsonParse := fun _ => Except.error "no parse",
        rglobMd := fun _ => [], iterdir := fun _ => [],
        globMd := fun _ => [], globYml := fun _ => [], globYaml := fun _ => [] }
      ["sleep", "1000"] "proj" = (1, "", "Command timed out after 300 seconds") :=
  ((C8_run_command_total _ ["sleep", "1000"] "proj").1 rfl).1

/-- C7 counterexample: with a `pyproject.toml` declaring `fail_under = 0`
and the positive default 95, the resolver returns 0 — not a positive
float, refuting "always returns a positive float". -/
theorem C7_counterexample :
    get_coverage_threshold
      { pathExists := fun p => p = "proj/pyproject.toml",
        isDir := fun _ => false,
        readText := fun p => if p = "proj/pyproject.toml" then "[tool.coverage.report]\nfail_under = 0\n" else "",
        run := fun _ _ => RunResult.fileNotFound,
        jsonParse := fun _ => Except.error "no parse",
        rglobMd := fun _ => [], iterdir := fun _ => [],
        globMd := fun _ => [], globYml := fun _ => [], globYaml := fun _ => [] }
      "proj" ProjectType.PYTHON 95 = 0 := by
  decide

/-- C7 (amended): the threshold resolver is a total function (never
raises); for project types other than python and nodejs it returns the
supplied default; any swallowed exception and any missed pattern/parse
falls through to exactly the supplied default.  (The returned value need
not be positive: a configured `fail_under = 0` is returned as is.) -/
theorem C7_amended_threshold_default (env : Env) (path : String) (pt : ProjectType) (d : ℚ) :
    (pt ≠ ProjectType.PYTHON → pt ≠ ProjectType.NODEJS →
      get_coverage_threshold env path pt d = d) ∧
    (∀ e, coverageThresholdBody env path pt = .error e →
      get_coverage_threshold env path pt d = d) ∧
    (pt = ProjectType.PYTHON →
      findFailUnder (env.readText (pjoin path "pyproject.toml")) = none →
      get_coverage_threshold env path pt d = d) ∧
    (pt = ProjectType.NODEJS →
      env.pathExists (pjoin path "package.json") = true →
      (∃ m, env.jsonParse (env.readText (pjoin path "package.json")) = .error m) →
      get_coverage_threshold env path pt d = d) := by
  refine ⟨fun h1 h2 => ?_, fun e he => ?_, fun hpt hf => ?_, fun hpt hex ⟨m, hm⟩ => ?_⟩
  · cases pt <;> simp_all [get_coverage_threshold, coverageThresholdBody]
  · simp [get_coverage_threshold, he]
  · subst hpt
    by_cases hp : env.pathExists (pjoin path "pyproject.toml") <;>
      simp [get_coverage_threshold, coverageThresholdBody, hp, hf]
  · subst hpt
    simp [get_coverage_threshold, coverageThresholdBody, hex, hm]

/-- Witness for C7 (amended): a Rust project returns the supplied default. -/
theorem C7_amended_threshold_default_witness :
    get_coverage_threshold
      { pathExists := fun p => p = "proj/Cargo.toml",
        isDir := fun _ => false, readText := fun _ => "",
        run := fun _ _ => RunResult.fileNotFound,
        jsonParse := fun _ => Except.error "no parse",
        rglobMd := fun _ => [], iterdir := fun _ => [],
        globMd := fun _ => [], globYml := fun _ => [], globYaml := fun _ => [] }
      "proj" ProjectType.RUST 95 = 95 :=
  (C7_amended_threshold_default _ "proj" ProjectType.RUST 95).1 (by decide) (by decide)

/-- Every check the `plugin.json` section appends is named `plugin.json`. -/
theorem pluginJsonCheck_names (env : Env) (path : String) :
    ∀ c ∈ (pluginJsonCheck env path).1, c.name = "plugin.json" := by
  intro c hc
  rcases hpr : pluginJsonCheck env path with ⟨cs, exc⟩
  rw [hpr] at hc
  simp only [pluginJsonCheck] at hpr
  repeat' split at hpr
  all_goals
    injection hpr with h1 h2
    subst h1
    simp_all

/-- C10: in the claude-plugin pipeline, when the agents directory exists but
contains no markdown files no `agents` CheckResult of any outcome is
appended; likewise no `agents`, `skills`, or `commands` CheckResult is
appended when the corresponding directory does not exist. -/
theorem C10_plugin_absent_dimensions (env : Env) (path : String) :
    (env.pathExists (pjoin path "agents") = true → env.rglobMd (pjoin path "agents") = [] →
      ∀ c ∈ (validate_claude_plugin env path).1, c.name ≠ "agents") ∧
    (env.pathExists (pjoin path "agents") = false →
      ∀ c ∈ (validate_claude_plugin env path).1, c.name ≠ "agents") ∧
    (env.pathExists (pjoin path "skills") = false →
      ∀ c ∈ (validate_claude_plugin env path).1, c.name ≠ "skills") ∧
    (env.pathExists (pjoin path "commands") = false →
      ∀ c ∈ (validate_claude_plugin env path).1, c.name ≠ "commands") := by
  have hplug : ∀ c ∈ (pluginJsonCheck env path).1,
      c.name ≠ "agents" ∧ c.name ≠ "skills" ∧ c.name ≠ "commands" := by
    intro c hc
    have := pluginJsonCheck_names env path c hc
    rw [this]
    refine ⟨by decide, by decide, by decide⟩
  have hskillname : ∀ c ∈ skillsChecks env path, c.name = "skills" := by
    intro c hc
    unfold skillsChecks at hc
    simp_all
  have hcmdname : ∀ c ∈ commandsChecks env path, c.name = "commands" := by
    intro c hc
    unfold commandsChecks at hc
    simp_all
  have hagentname : ∀ c ∈ agentsChecks env path, c.name = "agents" := by
    intro c hc
    unfold agentsChecks at hc
    simp_all
  have hmem : ∀ c ∈ (validate_claude_plugin env path).1,
      c ∈ (pluginJsonCheck env path).1 ∨ c ∈ agentsChecks env path ∨
      c ∈ skillsChecks env path ∨ c ∈ commandsChecks env path := by
    intro c hc
    unfold validate_claude_plugin at hc
    split at hc
    · rename_i cs e heq
      left
      rw [heq]
      exact hc
    · rename_i cs heq
      simp only [List.mem_append] at hc
      rcases hc with ((h | h) | h) | h
      · left; rw [heq]; exact h
      · right; left; exact h
      · right; right; left; exact h
      · right; right; right; exact h
  refine ⟨fun hex hmd c hc => ?_, fun hex c hc => ?_, fun hex c hc => ?_, fun hex c hc => ?_⟩
  · rcases hmem c hc with h | h | h | h
    · exact (hplug c h).1
    · exfalso
      simp only [agentsChecks, hex, hmd] at h
      simp at h
    · intro hn; rw [hskillname c h] at hn; exact absurd hn (by decide)
    · intro hn; rw [hcmdname c h] at hn; exact absurd hn (by decide)
  · rcases hmem c hc with h | h | h | h
    · exact (hplug c h).1
    · exfalso
      simp only [agentsChecks, hex] at h
      simp at h
    · intro hn; rw [hskillname c h] at hn; exact absurd hn (by decide)
    · intro hn; rw [hcmdname c h] at hn; exact absurd hn (by decide)
  · rcases hmem c hc with h | h | h | h
    · exact (hplug c h).2.1
    · intro hn; rw [hagentname c h] at hn; exact absurd hn (by decide)
    · exfalso
      simp only [skillsChecks, hex] at h
      simp at h
    · intro hn; rw [hcmdname c h] at hn; exact absurd hn (by decide)
  · rcases hmem c hc with h | h | h | h
    · exact (hplug c h).2.2
    · intro hn; rw [hagentname c h] at hn; exact absurd hn (by decide)
    · intro hn; rw [hskillname c h] at hn; exact absurd hn (by decide)
    · exfalso
      simp only [commandsChecks, hex] at h
      simp at h

/-- Witness for C10: a plugin whose `agents` directory exists but holds no
markdown files produces no `agents` check. -/
theorem C10_plugin_absent_dimensions_witness :
    ∀ c ∈ (validate_claude_plugin
      { pathExists := fun p => p = "proj/plugin.json" || p = "proj/agents",
        isDir := fun _ => false, readText := fun _ => "",
        run := fun _ _ => RunResult.fileNotFound,
        jsonParse := fun _ => Except.error "Expecting value: line 1 column 1 (char 0)",
        rglobMd := fun _ => [], iterdir := fun _ => [],
        globMd := fun _ => [], globYml := fun _ => [], globYaml := fun _ => [] }
      "proj").1, c.name ≠ "agents" :=
  (C10_plugin_absent_dimensions _ "proj").1 (by decide) rfl

/-- C2: the tests+coverage step at the spec's scenario C (exit 0, stdout
`TOTAL 100 10 90%`, threshold 95) yields coverage 90 and outcome `failed`
as the claim states; but at exit 0 with stdout `TOTAL 100 100 0%` and
threshold 95 the parsed coverage 0 is below the threshold and the step
nevertheless yields outcome `passed` (the source's truthiness test
`if coverage and ...` drops a parsed 0), contradicting the claim's
universal clause. -/
theorem C2_zero_coverage_divergence :
    pyTestsCheck envPyNinety "proj" 95 =
      [⟨"tests+coverage", ValidationResult.FAILED,
        "Coverage 90.0% below threshold 95.0%", none, some 90⟩] ∧
    (0 : ℚ) < 95 ∧
    pyTestsCheck envPyZero "proj" 95 =
      [⟨"tests+coverage", ValidationResult.PASSED, "Tests passed", none, some 0⟩] := by
  refine ⟨by decide, by norm_num, by decide⟩

/-- C3: a malformed `package.json` makes the Node.js pipeline escape with a
`JSONDecodeError` after appending no CheckResult, and the whole validation
run aborts with that exception instead of producing a report — the
malformed manifest is not converted into a `failed` CheckResult. -/
theorem C3_nodejs_malformed_manifest_divergence :
    validate_nodejs envNodeBad "proj" 95 =
      ([], some (PyExc.jsonDecodeError "Expecting value: line 1 column 1 (char 0)")) ∧
    validate_project envNodeBad "proj" 95 none =
      Except.error (PyExc.jsonDecodeError "Expecting value: line 1 column 1 (char 0)") := by
  refine ⟨by decide, by rfl⟩

/-- C4 counterexample: when a version tag exists but the diff command
against it fails, `detect_breaking_changes` appends no CheckResult at all,
and the resulting report silently omits the breaking-changes dimension
(its checks are only changelog, ci-config and the generic pipeline
warning). -/
theorem C4_counterexample_diff_failure :
    detect_breaking_changes envBcDiffFail "proj" = ⟨[], [], none, none⟩ ∧
    validate_project envBcDiffFail "proj" 95 none =
      Except.ok ⟨ProjectType.GENERIC, "proj",
        [⟨"changelog", ValidationResult.WARNING, "CHANGELOG.md not found", none, none⟩,
         ⟨"ci-config", ValidationResult.WARNING, "No CI configuration found", none, none⟩,
         ⟨"project-type", ValidationResult.WARNING,
          "Generic project - minimal validation available", none, none⟩],
        [], "patch"⟩ := by
  refine ⟨by decide, by rfl⟩

/-- The tests step of the python pipeline appends exactly one check. -/
theorem pyTestsCheck_len (env : Env) (path : String) (thr : ℚ) :
    1 ≤ (pyTestsCheck env path thr).length := by
  simp only [pyTestsCheck]
  repeat' split
  all_goals simp

/-- The lint step of the python pipeline appends exactly one check. -/
theorem pyLintCheck_len (env : Env) (path : String) : 1 ≤ (pyLintCheck env path).length := by
  simp only [pyLintCheck]
  repeat' split
  all_goals simp

/-- Lemma: `validate_python` always appends at least one check. -/
theorem validate_python_len (env : Env) (path : String) (thr : ℚ) :
    1 ≤ (validate_python env path thr).length := by
  have h := pyTestsCheck_len env path thr
  simp only [validate_python, List.length_append]
  omega

/-- The tests step of the go pipeline appends exactly one check. -/
theorem goTestsCheck_len (env : Env) (path : String) (thr : ℚ) :
    1 ≤ (goTestsCheck env path thr).length := by
  simp only [goTestsCheck]
  repeat' split
  all_goals simp

/-- Lemma: `validate_go` always appends at least one check. -/
theorem validate_go_len (env : Env) (path : String) (thr : ℚ) :
    1 ≤ (validate_go env path thr).length := by
  have h := goTestsCheck_len env path thr
  simp only [validate_go, List.length_append]
  omega

/-- The tests step of the rust pipeline appends exactly one check. -/
theorem rustTestsCheck_len (env : Env) (path : String) :
    1 ≤ (rustTestsCheck env path).length := by
  simp only [rustTestsCheck]
  repeat' split
  all_goals simp

/-- Lemma: `validate_rust` always appends at least one check. -/
theorem validate_rust_len (env : Env) (path : String) (thr : ℚ) :
    1 ≤ (validate_rust env path thr).length := by
  have h := rustTestsCheck_len env path
  simp only [validate_rust, List.length_append]
  omega

/-- Lemma: `validate_changelog` always appends exactly one check. -/
theorem validate_changelog_len (env : Env) (path : String) :
    1 ≤ (validate_changelog env path).length := by
  simp only [validate_changelog]
  repeat' split
  all_goals simp

/-- Lemma: `check_ci_will_pass` always appends exactly one check. -/
theorem check_ci_will_pass_len (env : Env) (path : String) :
    1 ≤ (check_ci_will_pass env path).length := by
  simp only [check_ci_will_pass]
  repeat' split
  all_goals simp

/-- When the manifest section completes without raising, it appended one
check. -/
theorem pluginJsonCheck_ok_len (env : Env) (path : String) (cs : List CheckResult) :
    pluginJsonCheck env path = (cs, none) → 1 ≤ cs.length := by
  intro hpr
  simp only [pluginJsonCheck] at hpr
  repeat' split at hpr
  all_goals injection hpr with h1 h2
  all_goals subst h1
  all_goals simp_all

/-- When the claude-plugin pipeline completes without raising, it appended
at least one check. -/
theorem validate_claude_plugin_ok_len (env : Env) (path : String) (cs : List CheckResult) :
    validate_claude_plugin env path = (cs, none) → 1 ≤ cs.length := by
  intro hpr
  unfold validate_claude_plugin at hpr
  split at hpr
  · rename_i cs0 e heq
    injection hpr with h1 h2
    cases h2
  · rename_i cs0 heq
    injection hpr with h1 h2
    have := pluginJsonCheck_ok_len env path cs0 heq
    subst h1
    simp only [List.length_append]
    omega

/-- When the Node.js pipeline completes without raising, it appended at
least one check. -/
theorem validate_nodejs_ok_len (env : Env) (path : String) (thr : ℚ) (cs : List CheckResult) :
    validate_nodejs env path thr = (cs, none) → 1 ≤ cs.length := by
  intro hpr
  simp only [validate_nodejs] at hpr
  repeat' split at hpr
  all_goals injection hpr with h1 h2
  all_goals subst h1
  all_goals simp_all

/-- Lemma: `detect_breaking_changes` appends no check (without raising) only when
the tag lookup succeeded and the subsequent diff command failed. -/
theorem bc_checks_empty_iff_diff_failed (env : Env) (path : String) :
    (detect_breaking_changes env path).exc = none →
    (detect_breaking_changes env path).checks = [] →
    ((run_command env ["git", "describe", "--tags", "--abbrev=0"] path).1 = 0 ∧
     (run_command env ["git", "diff", "--name-status",
        pyStrip (run_command env ["git", "describe", "--tags", "--abbrev=0"] path).2.1
          ++ "..HEAD"] path).1 ≠ 0) := by
  rcases heq : detect_breaking_changes env path with ⟨checks, br, sv, exc⟩
  intro h1 h2
  simp only at h1 h2
  subst h1
  subst h2
  simp only [detect_breaking_changes] at heq
  repeat' split at heq
  all_goals injection heq with hc hb hs he
  all_goals simp_all

/-- C4 (amended): every ecosystem pipeline and every common check appends
at least one CheckResult whenever it completes without raising — with the
single exception of the breaking-change detector, which appends none
exactly when a version tag was found but the diff command against it
failed. -/
theorem C4_amended_every_check_appends (env : Env) (path : String) (thr : ℚ) :
    1 ≤ (validate_changelog env path).length ∧
    1 ≤ (check_ci_will_pass env path).length ∧
    1 ≤ (validate_python env path thr).length ∧
    1 ≤ (validate_go env path thr).length ∧
    1 ≤ (validate_rust env path thr).length ∧
    (∀ cs, validate_claude_plugin env path = (cs, none) → 1 ≤ cs.length) ∧
    (∀ cs, validate_nodejs env path thr = (cs, none) → 1 ≤ cs.length) ∧
    ((detect_breaking_changes env path).exc = none →
      (detect_breaking_changes env path).checks = [] →
      ((run_command env ["git", "describe", "--tags", "--abbrev=0"] path).1 = 0 ∧
       (run_command env ["git", "diff", "--name-status",
          pyStrip (run_command env ["git", "describe", "--tags", "--abbrev=0"] path).2.1
            ++ "..HEAD"] path).1 ≠ 0)) :=
  ⟨validate_changelog_len env path, check_ci_will_pass_len env path,
   validate_python_len env path thr, validate_go_len env path thr,
   validate_rust_len env path thr,
   fun cs => validate_claude_plugin_ok_len env path cs,
   fun cs => validate_nodejs_ok_len env path thr cs,
   bc_checks_empty_iff_diff_failed env path⟩

/-- Witness for C4 (amended) at a concrete environment: the Node.js
pipeline on an existing well-formed empty manifest appends its three
checks. -/
theorem C4_amended_every_check_appends_witness :
    1 ≤ ([⟨"tests", ValidationResult.SKIPPED, "No test script defined", none, none⟩,
          ⟨"lint", ValidationResult.SKIPPED, "No lint configuration", none, none⟩,
          ⟨"security", ValidationResult.WARNING, "Vulnerabilities found", some "", none⟩] :
         List CheckResult).length :=
  (C4_amended_every_check_appends envNodeEmpty "proj" 95).2.2.2.2.2.2.1 _ (by decide)

/-- Lemma: `str.split` never returns an empty list. -/
theorem splitCharAux_ne_nil (sep : Char) :
    ∀ (cs acc : List Char), splitCharAux sep cs acc ≠ [] := by
  intro cs
  induction cs with
  | nil => intro acc; simp [splitCharAux]
  | cons c rest ih =>
    intro acc
    simp only [splitCharAux]
    split
    · simp
    · exact ih _

/-- On a well-formed non-empty diff line, the source's loop body computes
exactly the claim's entry, raising nothing. -/
theorem bcLineEntry_eq_claimEntry (l : String) (hwf : bcLineWF l) (hne : l ≠ "") :
    bcLineEntry l = Except.ok (claimEntry l) := by
  unfold bcLineWF at hwf
  unfold bcLineEntry claimEntry
  rcases hsp : pySplit '\t' l with _ | ⟨status, rest⟩
  · exact absurd hsp (splitCharAux_ne_nil '\t' l.toList [])
  · simp only [hsp, List.headD_cons, if_neg hne]
    by_cases hD : pyStartsWith status "D" = true
    · have hlen : 2 ≤ (pySplit '\t' l).length := by
        refine hwf hne ?_
        rw [hsp]
        exact Or.inl (by simpa using hD)
      rw [hsp] at hlen
      rcases rest with _ | ⟨fp, rest2⟩
      · simp at hlen
      · simp only [hD]
        simp only [if_true, List.get?, Option.getD, List.headD]
        split <;> rfl
    · by_cases hR : pyStartsWith status "R" = true
      · have hlen : 2 ≤ (pySplit '\t' l).length := by
          refine hwf hne ?_
          rw [hsp]
          exact Or.inr (by simpa using hR)
        rw [hsp] at hlen
        rcases rest with _ | ⟨old, rest2⟩
        · simp at hlen
        · rcases rest2 with _ | ⟨np, rest3⟩ <;>
            · simp only [hD, hR]
              simp only [if_true, Bool.false_eq_true, if_false, List.get?,
                Option.getD, List.headD]
              split <;> rfl
      · simp [hD, hR]

/-- On well-formed lines, the source's collection loop succeeds and returns
exactly the claim-side filtered list. -/
theorem bcCollect_eq_filterMap (lines : List String) (h : ∀ l ∈ lines, bcLineWF l) :
    bcCollect lines = Except.ok (lines.filterMap claimEntry) := by
  induction lines with
  | nil => rfl
  | cons l ls ih =>
    simp only [bcCollect]
    by_cases hl : l = ""
    · rw [if_pos hl, ih (fun x hx => h x (List.mem_cons_of_mem _ hx))]
      subst hl
      have : claimEntry "" = none := rfl
      simp [List.filterMap_cons, this]
    · rw [if_neg hl, bcLineEntry_eq_claimEntry l (h l (List.mem_cons_self _ _)) hl,
          ih (fun x hx => h x (List.mem_cons_of_mem _ hx))]
      simp only [List.filterMap_cons]
      cases claimEntry l <;> rfl

/-- C5: when the most recent tag is resolved and the diff against it is
obtained (with well-formed `--name-status` lines), the detector records
`DELETED:`/`RENAMED:` entries for exactly the deleted/renamed paths not
under a `.`-prefix and not under a `test`-prefix; when any entry exists it
appends a `warning` check with the count and up to 10 example entries in
the details and sets the semver recommendation to `major`, otherwise it
appends `passed`. -/
theorem C5_breaking_changes_exact (env : Env) (path : String)
    (tagOut es diffOut es2 : String)
    (hdesc : env.run ["git", "describe", "--tags", "--abbrev=0"] path =
      RunResult.completed 0 tagOut es)
    (hdiff : env.run ["git", "diff", "--name-status", pyStrip tagOut ++ "..HEAD"] path =
      RunResult.completed 0 diffOut es2)
    (hwf : ∀ l ∈ pySplit '\n' (pyStrip diffOut), bcLineWF l) :
    detect_breaking_changes env path =
      (if claimBreaking diffOut ≠ [] then
        ⟨[⟨"breaking-changes", ValidationResult.WARNING,
           "Found " ++ toString (claimBreaking diffOut).length ++ " potential breaking change(s)",
           some (String.intercalate "\n" ((claimBreaking diffOut).take 10)), none⟩],
         claimBreaking diffOut, some "major", none⟩
      else
        ⟨[⟨"breaking-changes", ValidationResult.PASSED, "No breaking changes detected",
           none, none⟩],
         claimBreaking diffOut, none, none⟩) := by
  simp only [detect_breaking_changes, run_command, hdesc, hdiff]
  rw [bcCollect_eq_filterMap _ hwf]
  simp [claimBreaking]

/-- Witness for C5: one deleted non-hidden, non-test path (`src/a.py`) and
one deleted hidden-prefixed path (`.hidden/b`) yield exactly one `DELETED:`
entry and the `major` recommendation. -/
theorem C5_breaking_changes_exact_witness :
    detect_breaking_changes envBcScenario "proj" =
      ⟨[⟨"breaking-changes", ValidationResult.WARNING,
         "Found 1 potential breaking change(s)", some "DELETED: src/a.py", none⟩],
       ["DELETED: src/a.py"], some "major", none⟩ := by
  have h := C5_breaking_changes_exact envBcScenario "proj" "v1.0\n" ""
    "D\tsrc/a.py\nD\t.hidden/b\n" "" rfl rfl (by decide)
  exact h.trans (by decide)

/-- Appending preserves feat-free names. -/
theorem nofeat_append (l1 l2 : List CheckResult)
    (h1 : ∀ c ∈ l1, nameHasFeat c = false) (h2 : ∀ c ∈ l2, nameHasFeat c = false) :
    ∀ c ∈ l1 ++ l2, nameHasFeat c = false := by
  intro c hc
  rcases List.mem_append.mp hc with h | h
  · exact h1 c h
  · exact h2 c h

/-- Lemma: `nameHasFeat` only inspects the name field. -/
theorem nameHasFeat_mk (n : String) (res : ValidationResult) (msg : String)
    (d : Option String) (cov : Option ℚ) :
    nameHasFeat ⟨n, res, msg, d, cov⟩ = pyContainsSub (pyLower n) "feat" := rfl

/-- No check name of the python tests step contains `feat`. -/
theorem nofeat_pyTests (env : Env) (path : String) (thr : ℚ) :
    ∀ c ∈ pyTestsCheck env path thr, nameHasFeat c = false := by
  intro c hc
  simp only [pyTestsCheck] at hc
  repeat' split at hc
  all_goals simp only [List.mem_singleton] at hc
  all_goals subst hc
  all_goals rw [nameHasFeat_mk]
  all_goals decide

/-- No check name of the python lint step contains `feat`. -/
theorem nofeat_pyLint (env : Env) (path : String) :
    ∀ c ∈ pyLintCheck env path, nameHasFeat c = false := by
  intro c hc
  simp only [pyLintCheck] at hc
  repeat' split at hc
  all_goals simp only [List.mem_singleton] at hc
  all_goals subst hc
  all_goals rw [nameHasFeat_mk]
  all_goals decide

/-- No check name of the python typecheck step contains `feat`. -/
theorem nofeat_pyTypecheck (env : Env) (path : String) :
    ∀ c ∈ pyTypecheckCheck env path, nameHasFeat c = false := by
  intro c hc
  simp only [pyTypecheckCheck] at hc
  repeat' split at hc
  all_goals simp only [List.mem_singleton] at hc
  all_goals subst hc
  all_goals rw [nameHasFeat_mk]
  all_goals decide

/-- No check name of the python security step contains `feat`. -/
theorem nofeat_pySecurity (env : Env) (path : String) :
    ∀ c ∈ pySecurityCheck env path, nameHasFeat c = false := by
  intro c hc
  simp only [pySecurityCheck] at hc
  repeat' split at hc
  all_goals simp only [List.mem_singleton] at hc
  all_goals subst hc
  all_goals rw [nameHasFeat_mk]
  all_goals decide

/-- No check name of the python dependencies step contains `feat`. -/
theorem nofeat_pyDeps (env : Env) (path : String) :
    ∀ c ∈ pyDepsCheck env path, nameHasFeat c = false := by
  intro c hc
  simp only [pyDepsCheck] at hc
  repeat' split at hc
  all_goals simp only [List.mem_singleton] at hc
  all_goals subst hc
  all_goals rw [nameHasFeat_mk]
  all_goals decide

/-- No check name of the python pipeline contains `feat`. -/
theorem nofeat_python (env : Env) (path : String) (thr : ℚ) :
    ∀ c ∈ validate_python env path thr, nameHasFeat c = false := by
  simp only [validate_python]
  exact nofeat_append _ _ (nofeat_append _ _ (nofeat_append _ _
    (nofeat_append _ _ (nofeat_pyTests env path thr) (nofeat_pyLint env path))
    (nofeat_pyTypecheck env path)) (nofeat_pySecurity env path)) (nofeat_pyDeps env path)

/-- No check name of the go tests step contains `feat`. -/
theorem nofeat_goTests (env : Env) (path : String) (thr : ℚ) :
    ∀ c ∈ goTestsCheck env path thr, nameHasFeat c = false := by
  intro c hc
  simp only [goTestsCheck] at hc
  repeat' split at hc
  all_goals simp only [List.mem_singleton] at hc
  all_goals subst hc
  all_goals rw [nameHasFeat_mk]
  all_goals decide

/-- No check name of the go lint step contains `feat`. -/
theorem nofeat_goLint (env : Env) (path : String) :
    ∀ c ∈ goLintCheck env path, nameHasFeat c = false := by
  intro c hc
  simp only [goLintCheck] at hc
  repeat' split at hc
  all_goals simp only [List.mem_singleton] at hc
  all_goals subst hc
  all_goals rw [nameHasFeat_mk]
  all_goals decide

/-- No check name of the go vet step contains `feat`. -/
theorem nofeat_goVet (env : Env) (path : String) :
    ∀ c ∈ goVetCheck env path, nameHasFeat c = false := by
  intro c hc
  simp only [goVetCheck] at hc
  repeat' split at hc
  all_goals simp only [List.mem_singleton] at hc
  all_goals subst hc
  all_goals rw [nameHasFeat_mk]
  all_goals decide

/-- No check name of the go pipeline contains `feat`. -/
theorem nofeat_go (env : Env) (path : String) (thr : ℚ) :
    ∀ c ∈ validate_go env path thr, nameHasFeat c = false := by
  simp only [validate_go]
  exact nofeat_append _ _ (nofeat_append _ _ (nofeat_goTests env path thr)
    (nofeat_goLint env path)) (nofeat_goVet env path)

/-- No check name of the rust tests step contains `feat`. -/
theorem nofeat_rustTests (env : Env) (path : String) :
    ∀ c ∈ rustTestsCheck env path, nameHasFeat c = false := by
  intro c hc
  simp only [rustTestsCheck] at hc
  repeat' split at hc
  all_goals simp only [List.mem_singleton] at hc
  all_goals subst hc
  all_goals rw [nameHasFeat_mk]
  all_goals decide

/-- No check name of the rust clippy step contains `feat`. -/
theorem nofeat_rustClippy (env : Env) (path : String) :
    ∀ c ∈ rustClippyCheck env path, nameHasFeat c = false := by
  intro c hc
  simp only [rustClippyCheck] at hc
  repeat' split at hc
  all_goals simp only [List.mem_singleton] at hc
  all_goals subst hc
  all_goals rw [nameHasFeat_mk]
  all_goals decide

/-- No check name of the rust audit step contains `feat`. -/
theorem nofeat_rustAudit (env : Env) (path : String) :
    ∀ c ∈ rustAuditCheck env path, nameHasFeat c = false := by
  intro c hc
  simp only [rustAuditCheck] at hc
  repeat' split at hc
  all_goals simp only [List.mem_singleton] at hc
  all_goals subst hc
  all_goals rw [nameHasFeat_mk]
  all_goals decide

/-- No check name of the rust formatting step contains `feat`. -/
theorem nofeat_rustFmt (env : Env) (path : String) :
    ∀ c ∈ rustFmtCheck env path, nameHasFeat c = false := by
  intro c hc
  simp only [rustFmtCheck] at hc
  repeat' split at hc
  all_goals simp only [List.mem_singleton] at hc
  all_goals subst hc
  all_goals rw [nameHasFeat_mk]
  all_goals decide

/-- No check name of the rust pipeline contains `feat`. -/
theorem nofeat_rust (env : Env) (path : String) (thr : ℚ) :
    ∀ c ∈ validate_rust env path thr, nameHasFeat c = false := by
  simp only [validate_rust]
  exact nofeat_append _ _ (nofeat_append _ _ (nofeat_append _ _
    (nofeat_rustTests env path) (nofeat_rustClippy env path))
    (nofeat_rustAudit env path)) (nofeat_rustFmt env path)

/-- No check name of the changelog check contains `feat`. -/
theorem nofeat_changelog (env : Env) (path : String) :
    ∀ c ∈ validate_changelog env path, nameHasFeat c = false := by
  intro c hc
  simp only [validate_changelog] at hc
  repeat' split at hc
  all_goals simp only [List.mem_singleton] at hc
  all_goals subst hc
  all_goals rw [nameHasFeat_mk]
  all_goals decide

/-- No check name of the CI-configuration check contains `feat`. -/
theorem nofeat_ci (env : Env) (path : String) :
    ∀ c ∈ check_ci_will_pass env path, nameHasFeat c = false := by
  intro c hc
  simp only [check_ci_will_pass, ciCheckFor] at hc
  repeat' split at hc
  all_goals simp only [List.mem_singleton] at hc
  all_goals subst hc
  all_goals rw [nameHasFeat_mk]
  all_goals decide

/-- No check name of the breaking-change detector contains `feat`. -/
theorem nofeat_bc (env : Env) (path : String) :
    ∀ c ∈ (detect_breaking_changes env path).checks, nameHasFeat c = false := by
  intro c hc
  rcases heq : detect_breaking_changes env path with ⟨checks, br, sv, exc⟩
  rw [heq] at hc
  simp only at hc
  simp only [detect_breaking_changes] at heq
  repeat' split at heq
  all_goals injection heq with h1 h2 h3 h4
  all_goals subst h1
  all_goals simp only [List.mem_singleton, List.not_mem_nil] at hc
  all_goals first
  | exact absurd hc (fun h => h)
  | (subst hc; rw [nameHasFeat_mk]; decide)

/-- No check name of the claude-plugin pipeline contains `feat`. -/
theorem nofeat_plugin (env : Env) (path : String) :
    ∀ c ∈ (validate_claude_plugin env path).1, nameHasFeat c = false := by
  have hagents : ∀ c ∈ agentsChecks env path, nameHasFeat c = false := by
    intro c hc
    simp only [agentsChecks] at hc
    repeat' split at hc
    all_goals simp only [List.mem_singleton, List.not_mem_nil] at hc
    all_goals first
    | exact absurd hc (fun h => h)
    | (subst hc; rw [nameHasFeat_mk]; decide)
  have hskills : ∀ c ∈ skillsChecks env path, nameHasFeat c = false := by
    intro c hc
    simp only [skillsChecks] at hc
    repeat' split at hc
    all_goals simp only [List.mem_singleton, List.not_mem_nil] at hc
    all_goals first
    | exact absurd hc (fun h => h)
    | (subst hc; rw [nameHasFeat_mk]; decide)
  have hcmds : ∀ c ∈ commandsChecks env path, nameHasFeat c = false := by
    intro c hc
    simp only [commandsChecks] at hc
    repeat' split at hc
    all_goals simp only [List.mem_singleton, List.not_mem_nil] at hc
    all_goals first
    | exact absurd hc (fun h => h)
    | (subst hc; rw [nameHasFeat_mk]; decide)
  have hpj : ∀ c ∈ (pluginJsonCheck env path).1, nameHasFeat c = false := by
    intro c hc
    have := pluginJsonCheck_names env path c hc
    unfold nameHasFeat
    rw [this]
    decide
  intro c hc
  unfold validate_claude_plugin at hc
  split at hc
  · rename_i cs e heq
    refine hpj c ?_
    rw [heq]
    exact hc
  · rename_i cs heq
    simp only [List.mem_append] at hc
    rcases hc with ((h | h) | h) | h
    · exact hpj c (by rw [heq]; exact h)
    · exact hagents c h
    · exact hskills c h
    · exact hcmds c h

/-- No check name of the Node.js pipeline contains `feat`. -/
theorem nofeat_nodejs (env : Env) (path : String) (thr : ℚ) :
    ∀ c ∈ (validate_nodejs env path thr).1, nameHasFeat c = false := by
  intro c hc
  rcases hpr : validate_nodejs env path thr with ⟨cs, exc⟩
  rw [hpr] at hc
  simp only at hc
  simp only [validate_nodejs] at hpr
  repeat' split at hpr
  all_goals injection hpr with h1 h2
  all_goals subst h1
  all_goals simp only [List.mem_append, List.mem_singleton, List.not_mem_nil,
    or_false, false_or] at hc
  all_goals first
  | exact absurd hc (fun h => h)
  | (repeat' (rcases hc with hc | hc)
     all_goals (rw [nameHasFeat_mk]; decide))

/-- The generic pipeline's single warning name contains no `feat`. -/
theorem nofeat_generic :
    ∀ c ∈ [(⟨"project-type", ValidationResult.WARNING,
            "Generic project - minimal validation available", none, none⟩ : CheckResult)],
      nameHasFeat c = false := by
  intro c hc
  simp only [List.mem_singleton] at hc
  subst hc
  decide

/-- The assembler's recomputed semver recommendation over feat-free check
names is `major` or `patch`. -/
theorem semver_assembled (checks : List CheckResult) (breaking : List String)
    (hall : ∀ c ∈ checks, nameHasFeat c = false) :
    ((if breaking ≠ [] then "major"
      else if (checks.filter (fun c => c.result == ValidationResult.PASSED)).any nameHasFeat
        then "minor" else "patch") = "major" ∨
     (if breaking ≠ [] then "major"
      else if (checks.filter (fun c => c.result == ValidationResult.PASSED)).any nameHasFeat
        then "minor" else "patch") = "patch") ∧
    (if breaking ≠ [] then "major"
     else if (checks.filter (fun c => c.result == ValidationResult.PASSED)).any nameHasFeat
       then "minor" else "patch") ≠ "minor" := by
  have hany : (checks.filter (fun c => c.result == ValidationResult.PASSED)).any nameHasFeat
      = false := by
    rw [List.any_eq_false]
    intro c hc
    simp [hall c (List.mem_of_mem_filter hc)]
  have hcond : ¬((checks.filter (fun c => c.result == ValidationResult.PASSED)).any nameHasFeat
      = true) := by
    simp [hany]
  by_cases hb : breaking ≠ []
  · rw [if_pos hb]
    exact ⟨Or.inl rfl, by decide⟩
  · rw [if_neg hb, if_neg hcond]
    exact ⟨Or.inr rfl, by decide⟩

/-- C9: whichever pipeline runs, every CheckResult name the program
produces is drawn from fixed literals none of which contains `feat`, so the
assembler's final semver recomputation never yields `minor`: every
successful run recommends `major` or `patch`. -/
theorem C9_semver_never_minor (env : Env) (path : String) (thr : ℚ)
    (forced : Option ProjectType) (r : ValidationReport)
    (h : validate_project env path thr forced = Except.ok r) :
    (r.semver_recommendation = "major" ∨ r.semver_recommendation = "patch") ∧
    r.semver_recommendation ≠ "minor" := by
  have hcommon : ∀ c ∈ validate_changelog env path ++
      (detect_breaking_changes env path).checks ++ check_ci_will_pass env path,
      nameHasFeat c = false :=
    nofeat_append _ _ (nofeat_append _ _ (nofeat_changelog env path) (nofeat_bc env path))
      (nofeat_ci env path)
  simp only [validate_project] at h
  split at h
  · exact absurd h (by simp)
  · rename_i hexc
    generalize (match forced with
      | some t => t
      | none => detect_project_type env path) = pt at h
    cases pt
    case CLAUDE_PLUGIN =>
      dsimp only at h
      split at h
      · exact absurd h (by simp)
      · injection h with h
        subst h
        exact semver_assembled _ _ (nofeat_append _ _ hcommon (nofeat_plugin env path))
    case PYTHON =>
      dsimp only at h
      injection h with h
      subst h
      exact semver_assembled _ _ (nofeat_append _ _ hcommon (nofeat_python env path _))
    case NODEJS =>
      dsimp only at h
      split at h
      · exact absurd h (by simp)
      · injection h with h
        subst h
        exact semver_assembled _ _ (nofeat_append _ _ hcommon (nofeat_nodejs env path _))
    case GO =>
      dsimp only at h
      injection h with h
      subst h
      exact semver_assembled _ _ (nofeat_append _ _ hcommon (nofeat_go env path _))
    case RUST =>
      dsimp only at h
      injection h with h
      subst h
      exact semver_assembled _ _ (nofeat_append _ _ hcommon (nofeat_rust env path _))
    case GENERIC =>
      dsimp only at h
      injection h with h
      subst h
      exact semver_assembled _ _ (nofeat_append _ _ hcommon nofeat_generic)

/-- Witness for C9: the full run on an inert environment produces a report
whose recommendation is `patch`, not `minor`. -/
theorem C9_semver_never_minor_witness :
    ((⟨ProjectType.GENERIC, "proj",
       [⟨"changelog", ValidationResult.WARNING, "CHANGELOG.md not found", none, none⟩,
        ⟨"breaking-changes", ValidationResult.SKIPPED, "No previous tags found", none, none⟩,
        ⟨"ci-config", ValidationResult.WARNING, "No CI configuration found", none, none⟩,
        ⟨"project-type", ValidationResult.WARNING,
         "Generic project - minimal validation available", none, none⟩],
       [], "patch"⟩ : ValidationReport).semver_recommendation = "major" ∨
     (⟨ProjectType.GENERIC, "proj",
       [⟨"changelog", ValidationResult.WARNING, "CHANGELOG.md not found", none, none⟩,
        ⟨"breaking-changes", ValidationResult.SKIPPED, "No previous tags found", none, none⟩,
        ⟨"ci-config", ValidationResult.WARNING, "No CI configuration found", none, none⟩,
        ⟨"project-type", ValidationResult.WARNING,
         "Generic project - minimal validation available", none, none⟩],
       [], "patch"⟩ : ValidationReport).semver_recommendation = "patch") ∧
    (⟨ProjectType.GENERIC, "proj",
       [⟨"changelog", ValidationResult.WARNING, "CHANGELOG.md not found", none, none⟩,
        ⟨"breaking-changes", ValidationResult.SKIPPED, "No previous tags found", none, none⟩,
        ⟨"ci-config", ValidationResult.WARNING, "No CI configuration found", none, none⟩,
        ⟨"project-type", ValidationResult.WARNING,
         "Generic project - minimal validation available", none, none⟩],
       [], "patch"⟩ : ValidationReport).semver_recommendation ≠ "minor" :=
  C9_semver_never_minor baseEnv "proj" 95 none _ (by rfl)
